import Mathlib

set_option linter.unusedVariables false

/-! Shallow embedding of the MSP430 instruction decoder from
src/instructions.py (the binaryninja-msp430 plugin).

Modelling conventions:
* Python integers are modelled as Nat; every quantity derived from an
  instruction word is produced by explicit bit masking, exactly as in the
  source, so no extra bounds are needed.  Signed branch offsets and operand
  values use Int (Python `x & 0x3ff` on a negative int is its residue
  modulo 1024, which is Int.emod here).
* A Python value that may be None is an Option.
* `Instruction.decode` returns None on its failure paths and can also raise
  an uncaught IndexError (an out-of-range index into the opcode-1 dispatch
  list); its result type `DecodeResult` therefore has three constructors:
  `ok`, `fail` (Python returns None) and `exn` (Python raises).
* The display/token layer (OperandTokens, generate_tokens) is out of scope
  and not modelled; it does not affect decoding. -/

namespace MSP430

/-- Type 1 instructions take two operands (TYPE1_INSTRUCTIONS). -/
def TYPE1_INSTRUCTIONS : List String :=
  ["mov", "add", "addc", "subc", "sub", "cmp",
   "dadd", "bit", "bic", "bis", "xor", "and"]

/-- Type 2 instructions take one operand (TYPE2_INSTRUCTIONS). -/
def TYPE2_INSTRUCTIONS : List String :=
  ["rrc", "swpb", "rra", "sxt", "push", "call", "reti", "br"]

/-- Type 3 instructions are the branches (TYPE3_INSTRUCTIONS). -/
def TYPE3_INSTRUCTIONS : List String :=
  ["jnz", "jz", "jnc", "jc", "jn", "jge", "jl", "jmp"]

/-- One entry of the Python InstructionNames list: None, a sub-list of
mnemonics selected by extra bits, or a single mnemonic string. -/
inductive NameEntry where
  | nothing
  | grp (ms : List String)
  | single (m : String)
deriving DecidableEq

/-- The InstructionNames dispatch list, indexed by the top-4-bit opcode. -/
def InstructionNames : List NameEntry :=
  [ .nothing,
    .grp ["rrc", "swpb", "rra", "sxt", "push", "call", "reti"],
    .grp ["jnz", "jz", "jnc", "jc"],
    .grp ["jn", "jge", "jl", "jmp"],
    .single "mov", .single "add", .single "addc", .single "subc",
    .single "sub", .single "cmp", .single "dadd", .single "bit",
    .single "bic", .single "bis", .single "xor", .single "and" ]

/-- InstructionMask: dict lookup modelled as an Option-valued function. -/
def InstructionMask (opcode : Nat) : Option Nat :=
  if opcode = 1 then some 0x380
  else if opcode = 2 then some 0xc00
  else if opcode = 3 then some 0xc00
  else none

/-- InstructionMaskShift: dict lookup modelled as an Option-valued function. -/
def InstructionMaskShift (opcode : Nat) : Option Nat :=
  if opcode = 1 then some 7
  else if opcode = 2 then some 10
  else if opcode = 3 then some 10
  else none

def WORD_WIDTH : Nat := 2
def BYTE_WIDTH : Nat := 1

def REGISTER_MODE : Nat := 0
def INDEXED_MODE : Nat := 1
def INDIRECT_REGISTER_MODE : Nat := 2
def INDIRECT_AUTOINCREMENT_MODE : Nat := 3
def SYMBOLIC_MODE : Nat := 4
def ABSOLUTE_MODE : Nat := 5
def IMMEDIATE_MODE : Nat := 6
def CONSTANT_MODE0 : Nat := 7
def CONSTANT_MODE1 : Nat := 8
def CONSTANT_MODE2 : Nat := 9
def CONSTANT_MODE4 : Nat := 10
def CONSTANT_MODE8 : Nat := 11
def CONSTANT_MODE_NEG1 : Nat := 12
def OFFSET : Nat := 13

/-- OperandLengths: extension-word byte count per (final) operand mode. -/
def OperandLengths : List Nat :=
  [0, 2, 0, 0, 2, 2, 2, 0, 0, 0, 0, 0, 0, 0]

/-- The sixteen register names. -/
def Registers : List String :=
  ["pc", "sp", "sr", "cg", "r4", "r5", "r6", "r7",
   "r8", "r9", "r10", "r11", "r12", "r13", "r14", "r15"]

/-- An operand (class Operand): mode, target register, width, value and
extension-word byte count.  Python initialises target/width/value to None
and operand_length to 0 unless passed. -/
structure Operand where
  mode : Nat
  target : Option String
  width : Option Nat
  value : Option Int
  operand_length : Nat
deriving DecidableEq

/-- SourceOperand.decode.  Faithful to the Python: a type-3 word gets the
fixed OFFSET mode, no target and no width, and its sign-extended 10-bit
offset as value; type-1/2 words get width from bit 6, raw mode from bits
5-4, the register from bits 3-0 (type 2) or 11-8 (type 1), then the
register-specific mode reinterpretation, and no value yet. -/
def SourceOperand.decode (instr_type instruction address : Nat) : Operand :=
  let width : Option Nat :=
    if instr_type = 3 then none
    else some (if (instruction &&& 0x40) >>> 6 ≠ 0 then BYTE_WIDTH else WORD_WIDTH)
  let mode : Nat :=
    if instr_type = 3 then OFFSET
    else (instruction &&& 0x30) >>> 4
  let target : Option String :=
    if instr_type = 2 then some (Registers.getD (instruction &&& 0xf) "")
    else if instr_type = 1 then some (Registers.getD ((instruction &&& 0xf00) >>> 8) "")
    else none
  let mode : Nat :=
    if target = some "pc" then
      if mode = INDEXED_MODE then SYMBOLIC_MODE
      else if mode = INDIRECT_AUTOINCREMENT_MODE then IMMEDIATE_MODE
      else mode
    else if target = some "cg" then
      if mode = REGISTER_MODE then CONSTANT_MODE0
      else if mode = INDEXED_MODE then CONSTANT_MODE1
      else if mode = INDIRECT_REGISTER_MODE then CONSTANT_MODE2
      else CONSTANT_MODE_NEG1
    else if target = some "sr" then
      if mode = INDEXED_MODE then ABSOLUTE_MODE
      else if mode = INDIRECT_REGISTER_MODE then CONSTANT_MODE4
      else if mode = INDIRECT_AUTOINCREMENT_MODE then CONSTANT_MODE8
      else mode
    else mode
  let operand_length := OperandLengths.getD mode 0
  if instr_type = 3 then
    let raw := instruction &&& 0x3ff
    -- Python: if offset & 0x200: offset = -((-offset) & 0x3ff).  A bitwise
    -- and of a (possibly negative) Python int with 0x3ff keeps its low ten
    -- twos-complement bits, i.e. its nonnegative residue modulo 1024.
    let value : Int :=
      if raw &&& 0x200 ≠ 0 then -((-(raw : Int)) % 1024) else (raw : Int)
    ⟨mode, target, width, some value, operand_length⟩
  else
    ⟨mode, target, width, none, operand_length⟩

/-- DestOperand.decode: None unless the word is type 1; otherwise width from
bit 6, register from bits 3-0, one-bit raw mode from bit 7, with the single
sr+indexed reinterpretation, and no value yet. -/
def DestOperand.decode (instr_type instruction address : Nat) : Option Operand :=
  if instr_type ≠ 1 then none
  else
    let width := if (instruction &&& 0x40) >>> 6 ≠ 0 then BYTE_WIDTH else WORD_WIDTH
    let target := Registers.getD (instruction &&& 0xf) ""
    let mode := (instruction &&& 0x80) >>> 7
    let mode := if target = "sr" ∧ mode = INDEXED_MODE then ABSOLUTE_MODE else mode
    let operand_length := OperandLengths.getD mode 0
    some ⟨mode, some target, some width, none, operand_length⟩

/-- A decoded instruction (class Instruction): address, mnemonic, type
(instruction class; None for the fixed emulated forms), the two operand
slots, total byte length and the emulated flag. -/
structure Instruction where
  address : Nat
  mnemonic : String
  type : Option Nat
  src : Option Operand
  dst : Option Operand
  length : Nat
  emulated : Bool
deriving DecidableEq

/-- Result of Instruction.decode: a decoded instruction, Python None
(`fail`), or an uncaught Python exception (`exn`). -/
inductive DecodeResult where
  | ok (i : Instruction)
  | fail
  | exn
deriving DecidableEq

/-- struct.unpack of a little-endian 16-bit word at byte offset i.  The
decoder only reads inside the buffer, so the out-of-range default 0 is
never observable. -/
def word16 (data : List Nat) (i : Nat) : Nat :=
  data.getD i 0 + 256 * data.getD (i + 1) 0

/-- Outcome of the mnemonic lookup (lines 331-340 of the source): the
Python variable `mnemonic` (a string or None), or an exception. -/
inductive ClassifyResult where
  | mn (m : Option String)
  | exn
deriving DecidableEq

/-- The mnemonic lookup: for opcodes with a mask/shift entry index the
sub-list (raising IndexError when the 3-bit selector is out of range, as
Python does for opcode 1 selector 7); otherwise take the entry itself,
which is a plain mnemonic or None. -/
def classifyMnemonic (opcode instruction : Nat) : ClassifyResult :=
  match InstructionMask opcode, InstructionMaskShift opcode with
  | some mask, some shift =>
    match InstructionNames.getD opcode .nothing with
    | .grp ms =>
      match ms.get? ((instruction &&& mask) >>> shift) with
      | some m => .mn (some m)
      | none => .exn
    | _ => .exn
  | _, _ =>
    match InstructionNames.getD opcode .nothing with
    | .nothing => .mn none
    | .single m => .mn (some m)
    | .grp _ => .exn

/-- The instruction-class chain (lines 342-347).  Every mnemonic the lookup
can produce is in one of the three lists, so the fallback 0 is unreachable
(Python would leave type_ unbound there). -/
def instrType (m : String) : Nat :=
  if TYPE1_INSTRUCTIONS.contains m then 1
  else if TYPE2_INSTRUCTIONS.contains m then 2
  else if TYPE3_INSTRUCTIONS.contains m then 3
  else 0

/-- Python `dst.target` read through the Option holding dst.  The source
only evaluates it after a short-circuiting mnemonic test that guarantees
dst is a two-operand destination, so the none branch is unreachable. -/
def optTarget : Option Operand → Option String
  | some d => d.target
  | none => none

/-- Python `dst.operand_length if dst else 0` (line 353): the destination
extension-byte count, 0 when there is no destination operand. -/
def dstExtra : Option Operand → Nat
  | some d => d.operand_length
  | none => 0

/-- Instruction.decode, translated line by line: truncation check, the
0x4130 `ret` shortcut, mnemonic lookup, operand decode, length computation
and second truncation check, extension-word reads (source first), then the
two emulated-instruction rewrites. -/
def Instruction.decode (data : List Nat) (address : Nat) : DecodeResult :=
  if data.length < 2 then .fail
  else
    let instruction := word16 data 0
    if instruction = 0x4130 then
      .ok ⟨address, "ret", none, none, none, 2, true⟩
    else
      let opcode := (instruction &&& 0xf000) >>> 12
      match classifyMnemonic opcode instruction with
      | .exn => .exn
      | .mn none => .fail
      | .mn (some mnemonic) =>
        let type_ := instrType mnemonic
        let src := SourceOperand.decode type_ instruction address
        let dst := DestOperand.decode type_ instruction address
        let length := 2 + src.operand_length + dstExtra dst
        if data.length < length then .fail
        else
          -- extension words: the value field is assigned, everything else kept
          let src2 : Operand :=
            if src.operand_length ≠ 0 then
              ⟨src.mode, src.target, src.width, some ((word16 data 2 : Nat) : Int),
               src.operand_length⟩
            else src
          let off : Nat := if src.operand_length ≠ 0 then 4 else 2
          let dst2 : Option Operand :=
            match dst with
            | some d =>
              if d.operand_length ≠ 0 then
                some ⟨d.mode, d.target, d.width, some ((word16 data off : Nat) : Int),
                      d.operand_length⟩
              else some d
            | none => none
          if mnemonic = "mov" ∧ optTarget dst2 = some "pc" then
            .ok ⟨address, "br", some type_, some src2, dst2, length, true⟩
          else if mnemonic = "bis" ∧ optTarget dst2 = some "sr" ∧ src2.value = some 0xf0 then
            .ok ⟨address, "dint", none, none, none, length, true⟩
          else
            .ok ⟨address, mnemonic, some type_, some src2, dst2, length, false⟩

/-- Replace the address stored in a successful decode; failures unchanged.
Used to state that the address input only flows into the address field. -/
def DecodeResult.withAddress (a : Nat) : DecodeResult → DecodeResult
  | .ok i => .ok ⟨a, i.mnemonic, i.type, i.src, i.dst, i.length, i.emulated⟩
  | .fail => .fail
  | .exn => .exn

/-- The register-driven mode-reinterpretation table of spec section 4.2,
written from the words of the spec (pc: indexed to symbolic, indirect
autoincrement to immediate; cg: the four constants; sr: indexed to
absolute, indirect register to constant 4, indirect autoincrement to
constant 8; every unlisted pair keeps the raw mode), for comparison with
the decoder. -/
def tableFinalModeSrc (reg : String) (raw : Nat) : Nat :=
  if reg = "pc" then
    if raw = INDEXED_MODE then SYMBOLIC_MODE
    else if raw = INDIRECT_AUTOINCREMENT_MODE then IMMEDIATE_MODE
    else raw
  else if reg = "cg" then
    if raw = REGISTER_MODE then CONSTANT_MODE0
    else if raw = INDEXED_MODE then CONSTANT_MODE1
    else if raw = INDIRECT_REGISTER_MODE then CONSTANT_MODE2
    else if raw = INDIRECT_AUTOINCREMENT_MODE then CONSTANT_MODE_NEG1
    else raw
  else if reg = "sr" then
    if raw = INDEXED_MODE then ABSOLUTE_MODE
    else if raw = INDIRECT_REGISTER_MODE then CONSTANT_MODE4
    else if raw = INDIRECT_AUTOINCREMENT_MODE then CONSTANT_MODE8
    else raw
  else raw

end MSP430

namespace MSP430

theorem OperandLengths_getD (m : Nat) :
    OperandLengths.getD m 0 =
      if m = INDEXED_MODE ∨ m = SYMBOLIC_MODE ∨ m = ABSOLUTE_MODE ∨ m = IMMEDIATE_MODE
      then 2 else 0 := by
  rcases Nat.lt_or_ge m 14 with h | h
  · interval_cases m <;> rfl
  · rw [List.getD_eq_default]
    · have : ¬ (m = INDEXED_MODE ∨ m = SYMBOLIC_MODE ∨ m = ABSOLUTE_MODE ∨ m = IMMEDIATE_MODE) := by
        simp only [INDEXED_MODE, SYMBOLIC_MODE, ABSOLUTE_MODE, IMMEDIATE_MODE]
        omega
      rw [if_neg this]
    · simpa [OperandLengths] using h

theorem sourceOperand_operand_length (t w a : Nat) :
    (SourceOperand.decode t w a).operand_length =
      OperandLengths.getD (SourceOperand.decode t w a).mode 0 := by
  unfold SourceOperand.decode
  split <;> rfl

theorem SourceOperand.decode_value_none (t w a : Nat) :
    (SourceOperand.decode t w a).mode = OFFSET ∨ (SourceOperand.decode t w a).value = none := by
  unfold SourceOperand.decode
  by_cases h : t = 3
  · left
    simp [h]
  · right
    simp [h]

end MSP430

namespace MSP430

theorem DestOperand.decode_not_one (t w a : Nat) (h : t ≠ 1) :
    DestOperand.decode t w a = none := by
  unfold DestOperand.decode
  rw [if_pos h]

theorem DestOperand.decode_one (w a : Nat) :
    DestOperand.decode 1 w a =
      some ⟨(if Registers.getD (w &&& 0xf) "" = "sr" ∧ (w &&& 0x80) >>> 7 = INDEXED_MODE
             then ABSOLUTE_MODE else (w &&& 0x80) >>> 7),
            some (Registers.getD (w &&& 0xf) ""),
            some (if (w &&& 0x40) >>> 6 ≠ 0 then BYTE_WIDTH else WORD_WIDTH),
            none,
            OperandLengths.getD
              (if Registers.getD (w &&& 0xf) "" = "sr" ∧ (w &&& 0x80) >>> 7 = INDEXED_MODE
               then ABSOLUTE_MODE else (w &&& 0x80) >>> 7) 0⟩ := rfl

theorem destOperand_operand_length (t w a : Nat) (d : Operand)
    (h : DestOperand.decode t w a = some d) :
    d.operand_length = OperandLengths.getD d.mode 0 := by
  by_cases h1 : t = 1
  · subst h1
    rw [DestOperand.decode_one] at h
    cases h
    rfl
  · rw [DestOperand.decode_not_one t w a h1] at h
    cases h

theorem DestOperand.decode_mode (t w a : Nat) (d : Operand)
    (h : DestOperand.decode t w a = some d) :
    d.mode = REGISTER_MODE ∨ d.mode = INDEXED_MODE ∨ d.mode = ABSOLUTE_MODE := by
  by_cases h1 : t = 1
  · subst h1
    rw [DestOperand.decode_one] at h
    cases h
    have hb : (w &&& 0x80) >>> 7 ≤ 1 := by
      have h1 : w &&& 0x80 ≤ 0x80 := Nat.and_le_right
      have := Nat.shiftRight_eq_div_pow (w &&& 0x80) 7
      omega
    by_cases hc : Registers.getD (w &&& 0xf) "" = "sr" ∧ (w &&& 0x80) >>> 7 = INDEXED_MODE
    · right; right
      show (if Registers.getD (w &&& 0xf) "" = "sr" ∧ (w &&& 0x80) >>> 7 = INDEXED_MODE
            then ABSOLUTE_MODE else (w &&& 0x80) >>> 7) = ABSOLUTE_MODE
      rw [if_pos hc]
    · show (if Registers.getD (w &&& 0xf) "" = "sr" ∧ (w &&& 0x80) >>> 7 = INDEXED_MODE
            then ABSOLUTE_MODE else (w &&& 0x80) >>> 7) = REGISTER_MODE ∨ _ ∨ _
      rw [if_neg hc]
      simp only [REGISTER_MODE, INDEXED_MODE, ABSOLUTE_MODE]
      omega
  · rw [DestOperand.decode_not_one t w a h1] at h
    cases h

end MSP430

namespace MSP430

theorem decode_withAddress (data : List Nat) (a : Nat) :
    Instruction.decode data a = (Instruction.decode data 0).withAddress a := by
  unfold Instruction.decode
  by_cases h2 : data.length < 2
  · simp [h2, DecodeResult.withAddress]
  · simp only [if_neg h2]
    by_cases hret : word16 data 0 = 0x4130
    · simp [hret, DecodeResult.withAddress]
    · simp only [if_neg hret]
      rcases hc : classifyMnemonic ((word16 data 0 &&& 0xf000) >>> 12) (word16 data 0) with m | _
      · rcases m with _ | m
        · simp [DecodeResult.withAddress]
        · have hsrc : SourceOperand.decode (instrType m) (word16 data 0) a =
              SourceOperand.decode (instrType m) (word16 data 0) 0 := rfl
          have hdst : DestOperand.decode (instrType m) (word16 data 0) a =
              DestOperand.decode (instrType m) (word16 data 0) 0 := rfl
          simp only [hsrc, hdst]
          split
          · simp [DecodeResult.withAddress]
          · split
            all_goals
              split
              · simp [DecodeResult.withAddress]
              · split <;> simp [DecodeResult.withAddress]
      · simp [DecodeResult.withAddress]

end MSP430

namespace MSP430

theorem decode_ok_inv (data : List Nat) (a : Nat) (i : Instruction)
    (h : Instruction.decode data a = .ok i) :
    ¬ data.length < 2 ∧
    ((word16 data 0 = 0x4130 ∧ i = ⟨a, "ret", none, none, none, 2, true⟩) ∨
     (word16 data 0 ≠ 0x4130 ∧
      ∃ m s0 d0 L s1 d1,
        classifyMnemonic ((word16 data 0 &&& 0xf000) >>> 12) (word16 data 0) = .mn (some m) ∧
        s0 = SourceOperand.decode (instrType m) (word16 data 0) a ∧
        d0 = DestOperand.decode (instrType m) (word16 data 0) a ∧
        L = 2 + s0.operand_length + dstExtra d0 ∧
        ¬ data.length < L ∧
        s1 = (if s0.operand_length ≠ 0 then
                Operand.mk s0.mode s0.target s0.width (some ((word16 data 2 : Nat) : Int))
                  s0.operand_length
              else s0) ∧
        d1 = (match d0 with
              | some d =>
                if d.operand_length ≠ 0 then
                  some (Operand.mk d.mode d.target d.width
                    (some ((word16 data (if s0.operand_length ≠ 0 then 4 else 2) : Nat) : Int))
                    d.operand_length)
                else some d
              | none => none) ∧
        ((m = "mov" ∧ optTarget d1 = some "pc" ∧
            i = ⟨a, "br", some (instrType m), some s1, d1, L, true⟩) ∨
         (¬(m = "mov" ∧ optTarget d1 = some "pc") ∧
            (m = "bis" ∧ optTarget d1 = some "sr" ∧ s1.value = some 0xf0) ∧
            i = ⟨a, "dint", none, none, none, L, true⟩) ∨
         (¬(m = "mov" ∧ optTarget d1 = some "pc") ∧
            ¬(m = "bis" ∧ optTarget d1 = some "sr" ∧ s1.value = some 0xf0) ∧
            i = ⟨a, m, some (instrType m), some s1, d1, L, false⟩)))) := by
  simp only [Instruction.decode] at h
  by_cases h2 : data.length < 2
  · rw [if_pos h2] at h; cases h
  · rw [if_neg h2] at h
    refine ⟨h2, ?_⟩
    by_cases hret : word16 data 0 = 0x4130
    · rw [if_pos hret] at h
      cases h
      exact Or.inl ⟨hret, rfl⟩
    · rw [if_neg hret] at h
      refine Or.inr ⟨hret, ?_⟩
      split at h
      · cases h
      · cases h
      · rename_i m hc
        split at h
        · cases h
        · rename_i hlen
          refine ⟨m, _, _, _, _, _, hc, rfl, rfl, rfl, hlen, rfl, rfl, ?_⟩
          split at h
          · rename_i hsrc
            split at h
            · rename_i hmov
              cases h
              simp only [if_pos hsrc]
              exact Or.inl ⟨hmov.1, hmov.2, trivial⟩
            · rename_i hmov
              split at h
              · rename_i hbis
                cases h
                simp only [if_pos hsrc]
                exact Or.inr (Or.inl ⟨hmov, hbis, trivial⟩)
              · rename_i hbis
                cases h
                simp only [if_pos hsrc]
                exact Or.inr (Or.inr ⟨hmov, hbis, trivial⟩)
          · rename_i hsrc
            split at h
            · rename_i hmov
              cases h
              simp only [if_neg hsrc]
              exact Or.inl ⟨hmov.1, hmov.2, trivial⟩
            · rename_i hmov
              split at h
              · rename_i hbis
                cases h
                simp only [if_neg hsrc]
                exact Or.inr (Or.inl ⟨hmov, hbis, trivial⟩)
              · rename_i hbis
                cases h
                simp only [if_neg hsrc]
                exact Or.inr (Or.inr ⟨hmov, hbis, trivial⟩)

end MSP430

namespace MSP430

/-- Claim C1 (code bug): the word 0x1380 has opcode 1 and 3-bit selector 7,
an unmapped slot of the seven-entry opcode-1 dispatch list; the decoder
raises an uncaught IndexError there instead of returning the explicit
invalid-opcode failure value, while an opcode-0 word does fail cleanly. -/
theorem c1_unmapped_selector_raises :
    Instruction.decode [0x80, 0x13] 0 = DecodeResult.exn ∧
    Instruction.decode [0x00, 0x00] 0 = DecodeResult.fail := by
  exact ⟨by decide, by decide⟩

/-- Claim C7 (confirmed): any buffer whose first little-endian word is
0x4130 decodes, at every address, to the fixed `ret` record: class none,
length 2, emulated, no operands. -/
theorem c7_ret_word (data : List Nat) (a : Nat)
    (h2 : 2 ≤ data.length) (hw : word16 data 0 = 0x4130) :
    Instruction.decode data a = .ok ⟨a, "ret", none, none, none, 2, true⟩ := by
  unfold Instruction.decode
  rw [if_neg (by omega), if_pos hw]

theorem c7_ret_word_witness :
    Instruction.decode [0x30, 0x41, 0xff] 0x4400 =
      .ok ⟨0x4400, "ret", none, none, none, 2, true⟩ :=
  c7_ret_word [0x30, 0x41, 0xff] 0x4400 (by decide) (by decide)

/-- Claim C2, counterexample: word 0x4480 is a mov with destination
register pc and raw destination mode indexed; the decoder leaves the
destination in INDEXED_MODE instead of SYMBOLIC_MODE from the table. -/
theorem c2_dest_pc_indexed_stays_indexed :
    Instruction.decode [0x80, 0x44, 0x00, 0x00] 0 =
      .ok ⟨0, "br", some 1,
           some ⟨REGISTER_MODE, some "r4", some WORD_WIDTH, none, 0⟩,
           some ⟨INDEXED_MODE, some "pc", some WORD_WIDTH, some 0, 2⟩,
           4, true⟩ ∧
    INDEXED_MODE ≠ SYMBOLIC_MODE := by
  exact ⟨by decide, by decide⟩

/-- Claim C4, counterexample: word 0x4303 (mov with source cg in
register-direct raw mode) resolves the source to CONSTANT_MODE0, but the
value field of the decoded operand is none, not the constant 0. -/
theorem c4_constant_value_unset :
    Instruction.decode [0x03, 0x43] 0 =
      .ok ⟨0, "mov", some 1,
           some ⟨CONSTANT_MODE0, some "cg", some WORD_WIDTH, none, 0⟩,
           some ⟨REGISTER_MODE, some "cg", some WORD_WIDTH, none, 0⟩,
           2, false⟩ ∧
    (none : Option Int) ≠ some 0 := by
  exact ⟨by decide, by decide⟩

/-- Claim C3, counterexample: the bis-to-dint rewrite (word 0xd032 with
immediate source 0xf0 and destination sr) returns a record with no source
and no destination operand but length 4, so the stated length formula over
the operands of the returned record cannot hold there. -/
theorem c3_dint_record_has_no_operands :
    Instruction.decode [0x32, 0xd0, 0xf0, 0x00] 0 =
      .ok ⟨0, "dint", none, none, none, 4, true⟩ ∧
    (4 : Nat) ≠ 2 := by
  exact ⟨by decide, by decide⟩

/-- Claim C6, counterexample: a truncated one-byte buffer and an
invalid-opcode word produce the very same untagged failure value (Python
None); the two failure kinds are not distinguishable in the result. -/
theorem c6_failures_same_value :
    Instruction.decode [0x00] 0 = Instruction.decode [0x00, 0x00] 0 ∧
    Instruction.decode [0x00] 0 = DecodeResult.fail := by
  exact ⟨by decide, by decide⟩

end MSP430

namespace MSP430

/-- Claim C10 (confirmed): for a fixed byte buffer, decoding at two
different addresses fails the same way or succeeds with instructions that
agree on every field except the stored address. -/
theorem c10_address_independent (data : List Nat) (a1 a2 : Nat) :
    (Instruction.decode data a1 = .fail ↔ Instruction.decode data a2 = .fail) ∧
    (Instruction.decode data a1 = .exn ↔ Instruction.decode data a2 = .exn) ∧
    (∀ i1 i2, Instruction.decode data a1 = .ok i1 → Instruction.decode data a2 = .ok i2 →
      i1.mnemonic = i2.mnemonic ∧ i1.type = i2.type ∧ i1.src = i2.src ∧
      i1.dst = i2.dst ∧ i1.length = i2.length ∧ i1.emulated = i2.emulated) := by
  rw [decode_withAddress data a1, decode_withAddress data a2]
  cases Instruction.decode data 0 with
  | ok i =>
    refine ⟨by simp [DecodeResult.withAddress], by simp [DecodeResult.withAddress], ?_⟩
    intro i1 i2 h1 h2
    simp only [DecodeResult.withAddress, DecodeResult.ok.injEq] at h1 h2
    rw [← h1, ← h2]
    exact ⟨rfl, rfl, rfl, rfl, rfl, rfl⟩
  | fail => exact ⟨Iff.rfl, Iff.rfl, fun i1 i2 h1 => by cases h1⟩
  | exn => exact ⟨Iff.rfl, Iff.rfl, fun i1 i2 h1 => by cases h1⟩

theorem c10_address_independent_witness :
    (⟨11, "jmp", some 3, some ⟨OFFSET, none, none, some 0, 0⟩, none, 2, false⟩ : Instruction).mnemonic = (⟨22, "jmp", some 3, some ⟨OFFSET, none, none, some 0, 0⟩, none, 2, false⟩ : Instruction).mnemonic ∧
    (⟨11, "jmp", some 3, some ⟨OFFSET, none, none, some 0, 0⟩, none, 2, false⟩ : Instruction).type = (⟨22, "jmp", some 3, some ⟨OFFSET, none, none, some 0, 0⟩, none, 2, false⟩ : Instruction).type ∧
    (⟨11, "jmp", some 3, some ⟨OFFSET, none, none, some 0, 0⟩, none, 2, false⟩ : Instruction).src = (⟨22, "jmp", some 3, some ⟨OFFSET, none, none, some 0, 0⟩, none, 2, false⟩ : Instruction).src ∧
    (⟨11, "jmp", some 3, some ⟨OFFSET, none, none, some 0, 0⟩, none, 2, false⟩ : Instruction).dst = (⟨22, "jmp", some 3, some ⟨OFFSET, none, none, some 0, 0⟩, none, 2, false⟩ : Instruction).dst ∧
    (⟨11, "jmp", some 3, some ⟨OFFSET, none, none, some 0, 0⟩, none, 2, false⟩ : Instruction).length = (⟨22, "jmp", some 3, some ⟨OFFSET, none, none, some 0, 0⟩, none, 2, false⟩ : Instruction).length ∧
    (⟨11, "jmp", some 3, some ⟨OFFSET, none, none, some 0, 0⟩, none, 2, false⟩ : Instruction).emulated = (⟨22, "jmp", some 3, some ⟨OFFSET, none, none, some 0, 0⟩, none, 2, false⟩ : Instruction).emulated := by
  exact (c10_address_independent [0x00, 0x3c] 11 22).2.2 _ _ (by decide) (by decide)

end MSP430

namespace MSP430

/-- Claim C3 (corrected): every successful decode has length 2, 4 or 6;
whenever the returned record still carries its source operand, the length
equals 2 plus the source extension bytes plus the destination extension
bytes (0 when absent); and the extension-byte count of each retained operand is
the fixed function of its final mode (2 for indexed, symbolic, absolute,
immediate; otherwise 0).  The dint rewrite keeps the length but drops the
operands, which is why the formula is restricted to retained operands. -/
theorem c3_length_invariant (data : List Nat) (a : Nat) (i : Instruction)
    (h : Instruction.decode data a = .ok i) :
    (i.length = 2 ∨ i.length = 4 ∨ i.length = 6) ∧
    (∀ s, i.src = some s →
      i.length = 2 + s.operand_length + dstExtra i.dst) ∧
    (∀ s, i.src = some s →
      s.operand_length = (if s.mode = INDEXED_MODE ∨ s.mode = SYMBOLIC_MODE ∨
          s.mode = ABSOLUTE_MODE ∨ s.mode = IMMEDIATE_MODE then 2 else 0)) ∧
    (∀ d, i.dst = some d →
      d.operand_length = (if d.mode = INDEXED_MODE ∨ d.mode = SYMBOLIC_MODE ∨
          d.mode = ABSOLUTE_MODE ∨ d.mode = IMMEDIATE_MODE then 2 else 0)) := by
  obtain ⟨hlen2, hcase⟩ := decode_ok_inv data a i h
  rcases hcase with ⟨hw, hi⟩ |
    ⟨hw, m, s0, d0, L, s1, d1, hc, hs0, hd0, hL, hbuf, hs1, hd1, hcase⟩
  · subst hi
    refine ⟨Or.inl rfl, ?_, ?_, ?_⟩ <;> intro x hx <;> cases hx
  · have hs1len : s1.operand_length = s0.operand_length := by
      rw [hs1]; split <;> rfl
    have hs1mode : s1.mode = s0.mode := by
      rw [hs1]; split <;> rfl
    have hs0len : s0.operand_length =
        (if s0.mode = INDEXED_MODE ∨ s0.mode = SYMBOLIC_MODE ∨
            s0.mode = ABSOLUTE_MODE ∨ s0.mode = IMMEDIATE_MODE then 2 else 0) := by
      rw [hs0, sourceOperand_operand_length, ← hs0, OperandLengths_getD]
    have hdfacts : ∀ d2, d1 = some d2 → ∃ d, d0 = some d ∧
        d2.operand_length = d.operand_length ∧ d2.mode = d.mode := by
      intro d2 h12
      rw [hd1] at h12
      split at h12
      · rename_i d
        refine ⟨d, rfl, ?_⟩
        split at h12 <;> rw [Option.some.injEq] at h12 <;> rw [← h12] <;> exact ⟨rfl, rfl⟩
      · cases h12
    have hdm : ∀ d2, d1 = some d2 →
        d2.operand_length = (if d2.mode = INDEXED_MODE ∨ d2.mode = SYMBOLIC_MODE ∨
            d2.mode = ABSOLUTE_MODE ∨ d2.mode = IMMEDIATE_MODE then 2 else 0) := by
      intro d2 h12
      obtain ⟨d, hd, hlen, hmode⟩ := hdfacts d2 h12
      have hdd : DestOperand.decode (instrType m) (word16 data 0) a = some d := by
        rw [← hd0]; exact hd
      rw [hlen, hmode, destOperand_operand_length _ _ _ _ hdd, OperandLengths_getD]
    have hmatch : dstExtra d1 = dstExtra d0 := by
      rw [hd1]
      cases d0 with
      | none => rfl
      | some d =>
        by_cases hdl : d.operand_length ≠ 0
        · simp only [dstExtra, if_pos hdl]
        · simp only [dstExtra, if_neg hdl]
    have hs0bound : s0.operand_length = 0 ∨ s0.operand_length = 2 := by
      rw [hs0len]; split
      · right; rfl
      · left; rfl
    have hd0bound : dstExtra d0 = 0 ∨ dstExtra d0 = 2 := by
      cases d0 with
      | none => left; rfl
      | some d =>
        have hdd : DestOperand.decode (instrType m) (word16 data 0) a = some d := hd0.symm
        have hh := destOperand_operand_length _ _ _ _ hdd
        rw [OperandLengths_getD] at hh
        show d.operand_length = 0 ∨ d.operand_length = 2
        rw [hh]
        split
        · right; rfl
        · left; rfl
    have hLbound : L = 2 ∨ L = 4 ∨ L = 6 := by
      rw [hL]
      rcases hs0bound with hb | hb <;> rcases hd0bound with hd | hd <;> rw [hb, hd] <;> simp
    rcases hcase with ⟨hmv, hpc, hi⟩ | ⟨hmv, hbs, hi⟩ | ⟨hmv, hbs, hi⟩ <;> subst hi
    · refine ⟨hLbound, ?_, ?_, ?_⟩
      · intro s hs
        rw [Option.some.injEq] at hs
        subst hs
        show L = 2 + s1.operand_length + dstExtra d1
        rw [hs1len, hmatch, hL]
      · intro s hs
        rw [Option.some.injEq] at hs
        subst hs
        rw [hs1len, hs1mode, hs0len]
      · exact hdm
    · refine ⟨hLbound, ?_, ?_, ?_⟩ <;> intro x hx <;> cases hx
    · refine ⟨hLbound, ?_, ?_, ?_⟩
      · intro s hs
        rw [Option.some.injEq] at hs
        subst hs
        show L = 2 + s1.operand_length + dstExtra d1
        rw [hs1len, hmatch, hL]
      · intro s hs
        rw [Option.some.injEq] at hs
        subst hs
        rw [hs1len, hs1mode, hs0len]
      · exact hdm

theorem c3_length_invariant_witness :
    ((4 : Nat) = 2 ∨ (4 : Nat) = 4 ∨ (4 : Nat) = 6) ∧ True ∧ True ∧ True := by
  have h := c3_length_invariant [0x80, 0x44, 0x00, 0x00] 0
    ⟨0, "br", some 1,
     some ⟨REGISTER_MODE, some "r4", some WORD_WIDTH, none, 0⟩,
     some ⟨INDEXED_MODE, some "pc", some WORD_WIDTH, some 0, 2⟩, 4, true⟩ (by decide)
  exact ⟨h.1, trivial, trivial, trivial⟩

end MSP430

namespace MSP430

/-- Claim C4 (corrected): an operand whose final mode is a
constant-generator mode consumes no extension word, and its value field is
left unset (none) by decode: the constant is implied by the mode alone and
only materialised by the rendering layer, not stored in the operand. -/
theorem c4_constant_generator (data : List Nat) (a : Nat) (i : Instruction) (op : Operand)
    (h : Instruction.decode data a = .ok i)
    (hop : i.src = some op ∨ i.dst = some op)
    (hmode : op.mode = CONSTANT_MODE0 ∨ op.mode = CONSTANT_MODE1 ∨ op.mode = CONSTANT_MODE2 ∨
             op.mode = CONSTANT_MODE4 ∨ op.mode = CONSTANT_MODE8 ∨ op.mode = CONSTANT_MODE_NEG1) :
    op.operand_length = 0 ∧ op.value = none := by
  obtain ⟨hlen2, hcase⟩ := decode_ok_inv data a i h
  rcases hcase with ⟨hw, hi⟩ |
    ⟨hw, m, s0, d0, L, s1, d1, hc, hs0, hd0, hL, hbuf, hs1, hd1, hcase⟩
  · subst hi; rcases hop with hx | hx <;> cases hx
  · have key : (i.src = some s1 ∧ i.dst = d1) ∨ (i.src = none ∧ i.dst = none) := by
      rcases hcase with ⟨_, _, hi⟩ | ⟨_, _, hi⟩ | ⟨_, _, hi⟩ <;> subst hi
      · exact Or.inl ⟨rfl, rfl⟩
      · exact Or.inr ⟨rfl, rfl⟩
      · exact Or.inl ⟨rfl, rfl⟩
    rcases key with ⟨hsrc, hdst⟩ | ⟨hsrc, hdst⟩
    · rcases hop with hx | hx
      · -- op is the source operand s1
        rw [hsrc, Option.some.injEq] at hx
        subst hx
        have hs1mode : s1.mode = s0.mode := by
          rw [hs1]; split <;> rfl
        have hm0 : s0.mode = CONSTANT_MODE0 ∨ s0.mode = CONSTANT_MODE1 ∨
            s0.mode = CONSTANT_MODE2 ∨ s0.mode = CONSTANT_MODE4 ∨
            s0.mode = CONSTANT_MODE8 ∨ s0.mode = CONSTANT_MODE_NEG1 := by
          rw [← hs1mode]; exact hmode
        have hs0len : s0.operand_length = 0 := by
          rw [hs0, sourceOperand_operand_length, ← hs0, OperandLengths_getD]
          rw [if_neg]
          simp only [INDEXED_MODE, SYMBOLIC_MODE, ABSOLUTE_MODE, IMMEDIATE_MODE,
            CONSTANT_MODE0, CONSTANT_MODE1, CONSTANT_MODE2, CONSTANT_MODE4,
            CONSTANT_MODE8, CONSTANT_MODE_NEG1] at hm0 ⊢
          omega
        have hs1s0 : s1 = s0 := by
          rw [hs1, if_neg]
          simp only [hs0len]
          omega
        have hval : s0.value = none := by
          rcases SourceOperand.decode_value_none (instrType m) (word16 data 0) a with hoff | hv
          · exfalso
            rw [← hs0] at hoff
            simp only [OFFSET, CONSTANT_MODE0, CONSTANT_MODE1, CONSTANT_MODE2,
              CONSTANT_MODE4, CONSTANT_MODE8, CONSTANT_MODE_NEG1] at hm0 hoff
            omega
          · rw [hs0]; exact hv
        rw [hs1s0]
        exact ⟨hs0len, hval⟩
      · -- op would be a destination operand: its mode is never a constant mode
        exfalso
        rw [hdst] at hx
        have hdm : op.mode = REGISTER_MODE ∨ op.mode = INDEXED_MODE ∨
            op.mode = ABSOLUTE_MODE := by
          rw [hd1] at hx
          split at hx
          · rename_i d
            have hdd : DestOperand.decode (instrType m) (word16 data 0) a = some d := hd0.symm
            have hgm := DestOperand.decode_mode _ _ _ _ hdd
            split at hx <;> rw [Option.some.injEq] at hx <;> rw [← hx] <;> exact hgm
          · cases hx
        simp only [REGISTER_MODE, INDEXED_MODE, ABSOLUTE_MODE, CONSTANT_MODE0,
          CONSTANT_MODE1, CONSTANT_MODE2, CONSTANT_MODE4, CONSTANT_MODE8,
          CONSTANT_MODE_NEG1] at hdm hmode
        omega
    · rcases hop with hx | hx
      · rw [hsrc] at hx; cases hx
      · rw [hdst] at hx; cases hx

theorem c4_constant_generator_witness :
    (⟨CONSTANT_MODE0, some "cg", some WORD_WIDTH, none, 0⟩ : Operand).operand_length = 0 ∧
    (⟨CONSTANT_MODE0, some "cg", some WORD_WIDTH, none, 0⟩ : Operand).value = none := by
  exact c4_constant_generator [0x03, 0x43] 0
    ⟨0, "mov", some 1,
     some ⟨CONSTANT_MODE0, some "cg", some WORD_WIDTH, none, 0⟩,
     some ⟨REGISTER_MODE, some "cg", some WORD_WIDTH, none, 0⟩, 2, false⟩
    ⟨CONSTANT_MODE0, some "cg", some WORD_WIDTH, none, 0⟩
    (by decide) (Or.inl rfl) (Or.inl rfl)

end MSP430

namespace MSP430

/-- Claim C6 (corrected): fewer than 2 bytes, or a buffer shorter than the
computed total instruction length (for the same leading word), makes decode
fail with no partial instruction — but the failure is the single untagged
value (Python None), the same value an invalid opcode produces, not a
distinguishable TruncatedInput kind. -/
theorem c6_truncation (full short : List Nat) (a : Nat) (i : Instruction) :
    (short.length < 2 → Instruction.decode short a = .fail) ∧
    (Instruction.decode full a = .ok i → 2 ≤ short.length → short.length < i.length →
      word16 short 0 = word16 full 0 → Instruction.decode short a = .fail) := by
  constructor
  · intro hlt
    unfold Instruction.decode
    rw [if_pos hlt]
  · intro h hge hlt hw
    obtain ⟨hlen2, hcase⟩ := decode_ok_inv full a i h
    rcases hcase with ⟨hret, hi⟩ |
      ⟨hret, m, s0, d0, L, s1, d1, hc, hs0, hd0, hL, hbuf, hs1, hd1, hcase⟩
    · subst hi
      exfalso
      simp only at hlt
      omega
    · have hiL : i.length = L := by
        rcases hcase with ⟨_, _, hi⟩ | ⟨_, _, hi⟩ | ⟨_, _, hi⟩ <;> subst hi <;> rfl
      unfold Instruction.decode
      rw [if_neg (by omega), hw, if_neg hret]
      simp only [hc]
      rw [← hs0, ← hd0, ← hL]
      rw [if_pos (by omega)]

theorem c6_truncation_witness :
    Instruction.decode [0x80] 0 = .fail ∧
    Instruction.decode [0x80, 0x44, 0x00] 0 = .fail := by
  constructor
  · exact (c6_truncation [] [0x80] 0
      ⟨0, "ret", none, none, none, 2, true⟩).1 (by decide)
  · exact (c6_truncation [0x80, 0x44, 0x00, 0x00] [0x80, 0x44, 0x00] 0
      ⟨0, "br", some 1,
       some ⟨REGISTER_MODE, some "r4", some WORD_WIDTH, none, 0⟩,
       some ⟨INDEXED_MODE, some "pc", some WORD_WIDTH, some 0, 2⟩, 4, true⟩).2
      (by decide) (by decide) (by decide) (by decide)

end MSP430

namespace MSP430

/-- Evaluating SourceOperand.decode on a type-3 (branch) word. -/
theorem SourceOperand.decode_three (w a : Nat) :
    SourceOperand.decode 3 w a =
      ⟨OFFSET, none, none,
       some (if (w &&& 0x3ff) &&& 0x200 ≠ 0 then -((-((w &&& 0x3ff : Nat) : Int)) % 1024)
             else ((w &&& 0x3ff : Nat) : Int)), 0⟩ := rfl

/-- Generic shape of a successful type-3 decode: two bytes suffice, the
source is the branch-offset operand and there is no destination. -/
theorem decode_type3 (data : List Nat) (a : Nat) (m : String)
    (hm : instrType m = 3)
    (h2 : 2 ≤ data.length)
    (hret : word16 data 0 ≠ 0x4130)
    (hc : classifyMnemonic ((word16 data 0 &&& 0xf000) >>> 12) (word16 data 0) =
      .mn (some m))
    (hm1 : m ≠ "mov") (hm2 : m ≠ "bis") :
    Instruction.decode data a =
      .ok ⟨a, m, some 3, some (SourceOperand.decode 3 (word16 data 0) a), none, 2, false⟩ := by
  unfold Instruction.decode
  rw [if_neg (by omega), if_neg hret]
  simp only [hc, hm]
  rw [DestOperand.decode_not_one 3 (word16 data 0) a (by omega)]
  rw [SourceOperand.decode_three]
  simp only [dstExtra]
  rw [if_neg (by omega)]
  rw [if_neg (fun hcon => hm1 hcon.1)]
  rw [if_neg (fun hcon => hm2 hcon.1)]
  simp

end MSP430

namespace MSP430

/-- Claim C5 (confirmed): every branch-only word (opcode nibble 2 or 3)
with at least two bytes of input decodes with a source operand in the
PC-relative OFFSET mode and no register target, whose value is the low ten
bits of the word read as signed twos complement: the raw field minus 1024
when bit 9 of the field is set, the raw field itself otherwise. -/
theorem c5_branch_offset (data : List Nat) (a : Nat)
    (h2 : 2 ≤ data.length)
    (hop : (word16 data 0 &&& 0xf000) >>> 12 = 2 ∨ (word16 data 0 &&& 0xf000) >>> 12 = 3) :
    ∃ i, Instruction.decode data a = .ok i ∧ i.type = some 3 ∧ i.length = 2 ∧ i.dst = none ∧
      ∃ s, i.src = some s ∧ s.mode = OFFSET ∧ s.target = none ∧
        s.value = some (if (word16 data 0 &&& 0x3ff) &&& 0x200 ≠ 0
                        then ((word16 data 0 &&& 0x3ff : Nat) : Int) - 1024
                        else ((word16 data 0 &&& 0x3ff : Nat) : Int)) := by
  have hret : word16 data 0 ≠ 0x4130 := by
    intro he
    rw [he] at hop
    rcases hop with hx | hx <;> exact absurd hx (by decide)
  have hsval : (SourceOperand.decode 3 (word16 data 0) a).value =
      some (if (word16 data 0 &&& 0x3ff) &&& 0x200 ≠ 0
            then ((word16 data 0 &&& 0x3ff : Nat) : Int) - 1024
            else ((word16 data 0 &&& 0x3ff : Nat) : Int)) := by
    rw [SourceOperand.decode_three]
    show some _ = some _
    congr 1
    by_cases hb : (word16 data 0 &&& 0x3ff) &&& 0x200 ≠ 0
    · rw [if_pos hb, if_pos hb]
      have h1 : word16 data 0 &&& 0x3ff ≤ 0x3ff := Nat.and_le_right
      have h0 : word16 data 0 &&& 0x3ff ≠ 0 := by
        intro he
        rw [he] at hb
        exact hb (by decide)
      omega
    · rw [if_neg hb, if_neg hb]
  have hselbound : (word16 data 0 &&& 0xc00) >>> 10 < 4 := by
    have hb1 : word16 data 0 &&& 0xc00 ≤ 0xc00 := Nat.and_le_right
    have hb2 := Nat.shiftRight_eq_div_pow (word16 data 0 &&& 0xc00) 10
    omega
  obtain ⟨sel, hsel⟩ : ∃ sel, (word16 data 0 &&& 0xc00) >>> 10 = sel := ⟨_, rfl⟩
  rw [hsel] at hselbound
  rcases hop with hop | hop
  · interval_cases sel
    · exact ⟨_, decode_type3 data a "jnz" (by decide) h2 hret
        (by rw [hop]; simp [classifyMnemonic, InstructionMask, InstructionMaskShift,
          InstructionNames, hsel]) (by decide) (by decide),
        rfl, rfl, rfl, _, rfl, rfl, rfl, hsval⟩
    · exact ⟨_, decode_type3 data a "jz" (by decide) h2 hret
        (by rw [hop]; simp [classifyMnemonic, InstructionMask, InstructionMaskShift,
          InstructionNames, hsel]) (by decide) (by decide),
        rfl, rfl, rfl, _, rfl, rfl, rfl, hsval⟩
    · exact ⟨_, decode_type3 data a "jnc" (by decide) h2 hret
        (by rw [hop]; simp [classifyMnemonic, InstructionMask, InstructionMaskShift,
          InstructionNames, hsel]) (by decide) (by decide),
        rfl, rfl, rfl, _, rfl, rfl, rfl, hsval⟩
    · exact ⟨_, decode_type3 data a "jc" (by decide) h2 hret
        (by rw [hop]; simp [classifyMnemonic, InstructionMask, InstructionMaskShift,
          InstructionNames, hsel]) (by decide) (by decide),
        rfl, rfl, rfl, _, rfl, rfl, rfl, hsval⟩
  · interval_cases sel
    · exact ⟨_, decode_type3 data a "jn" (by decide) h2 hret
        (by rw [hop]; simp [classifyMnemonic, InstructionMask, InstructionMaskShift,
          InstructionNames, hsel]) (by decide) (by decide),
        rfl, rfl, rfl, _, rfl, rfl, rfl, hsval⟩
    · exact ⟨_, decode_type3 data a "jge" (by decide) h2 hret
        (by rw [hop]; simp [classifyMnemonic, InstructionMask, InstructionMaskShift,
          InstructionNames, hsel]) (by decide) (by decide),
        rfl, rfl, rfl, _, rfl, rfl, rfl, hsval⟩
    · exact ⟨_, decode_type3 data a "jl" (by decide) h2 hret
        (by rw [hop]; simp [classifyMnemonic, InstructionMask, InstructionMaskShift,
          InstructionNames, hsel]) (by decide) (by decide),
        rfl, rfl, rfl, _, rfl, rfl, rfl, hsval⟩
    · exact ⟨_, decode_type3 data a "jmp" (by decide) h2 hret
        (by rw [hop]; simp [classifyMnemonic, InstructionMask, InstructionMaskShift,
          InstructionNames, hsel]) (by decide) (by decide),
        rfl, rfl, rfl, _, rfl, rfl, rfl, hsval⟩

end MSP430

namespace MSP430

/-- Claim C8 (confirmed): a decodable mov whose destination register is pc
is returned with mnemonic br and emulated true, while its operands and its
length are exactly those of the underlying mov decode (the operand records
are unchanged apart from the extension-word value fills, and the length is
2 plus their extension-byte counts). -/
theorem c8_mov_pc_br (data : List Nat) (a : Nat) (s d : Operand)
    (h2 : 2 ≤ data.length)
    (hret : word16 data 0 ≠ 0x4130)
    (hop : (word16 data 0 &&& 0xf000) >>> 12 = 4)
    (hpc : word16 data 0 &&& 0xf = 0)
    (hs : SourceOperand.decode 1 (word16 data 0) a = s)
    (hd : DestOperand.decode 1 (word16 data 0) a = some d)
    (hlen : 2 + s.operand_length + d.operand_length ≤ data.length) :
    Instruction.decode data a =
      .ok ⟨a, "br", some 1,
        some (if s.operand_length ≠ 0 then
          Operand.mk s.mode s.target s.width (some ((word16 data 2 : Nat) : Int))
            s.operand_length
        else s),
        (if d.operand_length ≠ 0 then
          some (Operand.mk d.mode d.target d.width
            (some ((word16 data (if s.operand_length ≠ 0 then 4 else 2) : Nat) : Int))
            d.operand_length)
        else some d),
        2 + s.operand_length + d.operand_length, true⟩ := by
  have hdt : d.target = some "pc" := by
    rw [DestOperand.decode_one, Option.some.injEq] at hd
    rw [← hd, hpc]
    rfl
  have hcl : classifyMnemonic ((word16 data 0 &&& 0xf000) >>> 12) (word16 data 0) =
      .mn (some "mov") := by
    rw [hop]
    rfl
  have hopt : optTarget (if d.operand_length ≠ 0 then
      some (Operand.mk d.mode d.target d.width
        (some ((word16 data (if s.operand_length ≠ 0 then 4 else 2) : Nat) : Int))
        d.operand_length)
    else some d) = some "pc" := by
    split
    · exact hdt
    · exact hdt
  unfold Instruction.decode
  rw [if_neg (by omega), if_neg hret]
  simp only [hcl]
  simp only [(by decide : instrType "mov" = 1)]
  simp only [hs, hd, dstExtra]
  rw [if_neg (by omega)]
  rw [if_pos ⟨trivial, hopt⟩]

theorem c8_mov_pc_br_witness :
    Instruction.decode [0x00, 0x44] 5 =
      .ok ⟨5, "br", some 1,
        some (if (⟨REGISTER_MODE, some "r4", some WORD_WIDTH, none, 0⟩ : Operand).operand_length ≠ 0 then
          Operand.mk REGISTER_MODE (some "r4") (some WORD_WIDTH)
            (some ((word16 [0x00, 0x44] 2 : Nat) : Int)) 0
        else ⟨REGISTER_MODE, some "r4", some WORD_WIDTH, none, 0⟩),
        (if (⟨REGISTER_MODE, some "pc", some WORD_WIDTH, none, 0⟩ : Operand).operand_length ≠ 0 then
          some (Operand.mk REGISTER_MODE (some "pc") (some WORD_WIDTH)
            (some ((word16 [0x00, 0x44]
              (if (⟨REGISTER_MODE, some "r4", some WORD_WIDTH, none, 0⟩ : Operand).operand_length ≠ 0
               then 4 else 2) : Nat) : Int)) 0)
        else some ⟨REGISTER_MODE, some "pc", some WORD_WIDTH, none, 0⟩),
        2 + 0 + 0, true⟩ :=
  c8_mov_pc_br [0x00, 0x44] 5
    ⟨REGISTER_MODE, some "r4", some WORD_WIDTH, none, 0⟩
    ⟨REGISTER_MODE, some "pc", some WORD_WIDTH, none, 0⟩
    (by decide) (by decide) (by decide) (by decide) (by decide) (by decide) (by decide)

/-- Claim C9 (confirmed): a decodable bis whose destination register is sr
and whose source operand value resolves to 0xf0 is returned as the
zero-operand mnemonic dint, emulated true, with no operand records, at the
same address and with the length of the underlying bis encoding. -/
theorem c9_bis_dint (data : List Nat) (a : Nat) (s d : Operand)
    (h2 : 2 ≤ data.length)
    (hret : word16 data 0 ≠ 0x4130)
    (hop : (word16 data 0 &&& 0xf000) >>> 12 = 13)
    (hsr : word16 data 0 &&& 0xf = 2)
    (hs : SourceOperand.decode 1 (word16 data 0) a = s)
    (hd : DestOperand.decode 1 (word16 data 0) a = some d)
    (hlen : 2 + s.operand_length + d.operand_length ≤ data.length)
    (hv : (if s.operand_length ≠ 0 then
            Operand.mk s.mode s.target s.width (some ((word16 data 2 : Nat) : Int))
              s.operand_length
          else s).value = some 0xf0) :
    Instruction.decode data a =
      .ok ⟨a, "dint", none, none, none, 2 + s.operand_length + d.operand_length, true⟩ := by
  have hdt : d.target = some "sr" := by
    rw [DestOperand.decode_one, Option.some.injEq] at hd
    rw [← hd, hsr]
    rfl
  have hcl : classifyMnemonic ((word16 data 0 &&& 0xf000) >>> 12) (word16 data 0) =
      .mn (some "bis") := by
    rw [hop]
    rfl
  have hopt : optTarget (if d.operand_length ≠ 0 then
      some (Operand.mk d.mode d.target d.width
        (some ((word16 data (if s.operand_length ≠ 0 then 4 else 2) : Nat) : Int))
        d.operand_length)
    else some d) = some "sr" := by
    split
    · exact hdt
    · exact hdt
  unfold Instruction.decode
  rw [if_neg (by omega), if_neg hret]
  simp only [hcl]
  simp only [(by decide : instrType "bis" = 1)]
  simp only [hs, hd, dstExtra]
  rw [if_neg (by omega)]
  rw [if_neg (fun hcon => absurd hcon.1 (by decide))]
  rw [if_pos ⟨trivial, hopt, hv⟩]

theorem c9_bis_dint_witness :
    Instruction.decode [0x32, 0xd0, 0xf0, 0x00] 9 =
      .ok ⟨9, "dint", none, none, none, 2 + 2 + 0, true⟩ :=
  c9_bis_dint [0x32, 0xd0, 0xf0, 0x00] 9
    ⟨IMMEDIATE_MODE, some "pc", some WORD_WIDTH, none, 2⟩
    ⟨REGISTER_MODE, some "sr", some WORD_WIDTH, none, 0⟩
    (by decide) (by decide) (by decide) (by decide) (by decide) (by decide) (by decide)
    (by decide)

end MSP430

namespace MSP430

theorem c5_branch_offset_witness :
    ∃ i, Instruction.decode [0xff, 0x23] 0 = .ok i ∧ i.type = some 3 ∧ i.length = 2 ∧
      i.dst = none ∧
      ∃ s, i.src = some s ∧ s.mode = OFFSET ∧ s.target = none ∧
        s.value = some (if (word16 [0xff, 0x23] 0 &&& 0x3ff) &&& 0x200 ≠ 0
                        then ((word16 [0xff, 0x23] 0 &&& 0x3ff : Nat) : Int) - 1024
                        else ((word16 [0xff, 0x23] 0 &&& 0x3ff : Nat) : Int)) :=
  c5_branch_offset [0xff, 0x23] 0 (by decide) (Or.inl (by decide))

/-- Claim C2 (corrected): the register-driven mode-reinterpretation
table holds exactly for source operands of both the two-operand (register
in bits 11-8) and one-operand (register in bits 3-0) classes; destination
operands only receive the sr+indexed-to-absolute row, and every other
(register, raw-mode) destination pair keeps the raw one-bit mode. -/
theorem c2_mode_reinterpretation (w a : Nat) :
    (SourceOperand.decode 1 w a).mode =
      tableFinalModeSrc (Registers.getD ((w &&& 0xf00) >>> 8) "") ((w &&& 0x30) >>> 4) ∧
    (SourceOperand.decode 2 w a).mode =
      tableFinalModeSrc (Registers.getD (w &&& 0xf) "") ((w &&& 0x30) >>> 4) ∧
    (∀ d, DestOperand.decode 1 w a = some d →
      d.mode = (if Registers.getD (w &&& 0xf) "" = "sr" ∧ (w &&& 0x80) >>> 7 = INDEXED_MODE
                then ABSOLUTE_MODE else (w &&& 0x80) >>> 7)) := by
  have hmo4 : (w &&& 0x30) >>> 4 < 4 := by
    have hb1 : w &&& 0x30 ≤ 0x30 := Nat.and_le_right
    have hb2 := Nat.shiftRight_eq_div_pow (w &&& 0x30) 4
    omega
  obtain ⟨mo, hmo⟩ : ∃ mo, (w &&& 0x30) >>> 4 = mo := ⟨_, rfl⟩
  rw [hmo] at hmo4
  refine ⟨?_, ?_, ?_⟩
  · have hrb : (w &&& 0xf00) >>> 8 < 16 := by
      have hb1 : w &&& 0xf00 ≤ 0xf00 := Nat.and_le_right
      have hb2 := Nat.shiftRight_eq_div_pow (w &&& 0xf00) 8
      omega
    obtain ⟨r, hr⟩ : ∃ r, (w &&& 0xf00) >>> 8 = r := ⟨_, rfl⟩
    rw [hr] at hrb
    simp only [SourceOperand.decode, hr, hmo]
    norm_num
    interval_cases r <;> interval_cases mo <;> decide
  · have hrb : w &&& 0xf < 16 := by
      have hb1 : w &&& 0xf ≤ 0xf := Nat.and_le_right
      omega
    obtain ⟨r, hr⟩ : ∃ r, w &&& 0xf = r := ⟨_, rfl⟩
    rw [hr] at hrb
    simp only [SourceOperand.decode, hr, hmo]
    norm_num
    interval_cases r <;> interval_cases mo <;> decide
  · intro d hd
    rw [DestOperand.decode_one, Option.some.injEq] at hd
    rw [← hd]

theorem c2_mode_reinterpretation_witness :
    (⟨INDEXED_MODE, some "pc", some WORD_WIDTH, none, 2⟩ : Operand).mode =
      (if Registers.getD (0x4480 &&& 0xf) "" = "sr" ∧ (0x4480 &&& 0x80) >>> 7 = INDEXED_MODE
       then ABSOLUTE_MODE else (0x4480 &&& 0x80) >>> 7) :=
  (c2_mode_reinterpretation 0x4480 0).2.2
    ⟨INDEXED_MODE, some "pc", some WORD_WIDTH, none, 2⟩ (by decide)

end MSP430
